import Mathlib

/-!
Verification development for the flight-finder price-discovery engine.

The definitions below are a shallow embedding of the JavaScript sources:

* `src/scripts/check-flights.js` — the batch runner (`checkFlightPrices`),
  the platform extractors (`checkGoogleFlights`, `checkSkyscanner`,
  `checkKayak`), persistence (`saveFlightResults`), the price text parser
  (`parsePrice`) and the backoff helper (`getNextCheckTime`), together with
  the date utilities (`getDatesForDaysOfWeek`, `generateTripCombinations`).
* `src/scripts/email-alerts.js` — the bulk alert dispatch contract
  (`sendBulkFlightAlert`).

JavaScript numbers appearing as integer cent amounts are embedded as `Nat`;
the one place the code divides by 100 to obtain major currency units is
embedded in `ℚ`.  Strings are embedded as `String` / `List Char`, timestamps
as milliseconds (`Nat`), and calendar dates as day numbers (`Nat`, with the
weekday of day `d` being `d % 7`).  Exceptions are embedded with `Except`.
-/

namespace FlightFinder

/-! ## Price text parser (`parsePrice`, check-flights.js lines 554–582)

The JS code extracts the first substring of the input matching the regex
`(\d{1,4}(?:[.,]\d{2})?)`, replaces a comma decimal separator by a period,
parses the result as a decimal number, rejects values outside `[10, 2000]`,
and otherwise returns `Math.round(value * 100)`.

The regex search is embedded directly: the engine tries each start position
left to right; at a position the greedy `\d{1,4}` consumes up to four
digits, after which the optional group `(?:[.,]\d{2})?` consumes a separator
and exactly two digits when they are present.  Since the group is optional,
a match succeeds at every position that starts with a digit, so no
backtracking into the digit quantifier can occur. -/

/-- Numeric value of a decimal digit character. -/
def charVal (c : Char) : Nat := c.toNat - '0'.toNat

/-- Value of a string of decimal digits (most significant first). -/
def digitsToNat (ds : List Char) : Nat := ds.foldl (fun n c => n * 10 + charVal c) 0

/-- The decimal-separator class `[.,]` of the regex. -/
def isSep (c : Char) : Bool := c == ',' || c == '.'

/-- Greedily consume up to `n` leading digits: the behaviour of `\d{1,n}`
(together with the remainder of the input). -/
def takeDigitsUpTo : Nat → List Char → List Char × List Char
  | 0, cs => ([], cs)
  | _ + 1, [] => ([], [])
  | n + 1, c :: cs =>
    if c.isDigit then
      let p := takeDigitsUpTo n cs
      (c :: p.1, p.2)
    else ([], c :: cs)

/-- Attempt the regex `\d{1,4}(?:[.,]\d{2})?` at the start of `cs`,
returning the matched characters. -/
def matchNumberAt (cs : List Char) : Option (List Char) :=
  let p := takeDigitsUpTo 4 cs
  if p.1.isEmpty then none
  else
    match p.2 with
    | sep :: d1 :: d2 :: _ =>
      if isSep sep && d1.isDigit && d2.isDigit then some (p.1 ++ [sep, d1, d2])
      else some p.1
    | _ => some p.1

/-- The leftmost match of `(\d{1,4}(?:[.,]\d{2})?)` in the text: the
behaviour of `priceText.match(...)` in `parsePrice`. -/
def firstNumberMatch : List Char → Option (List Char)
  | [] => none
  | c :: cs =>
    match matchNumberAt (c :: cs) with
    | some m => some m
    | none => firstNumberMatch cs

/-- The integer cent amount denoted by a matched number string: `dd…d` is
worth `100 ×` its value, `dd…d[.,]fg` additionally the two-digit fraction.
(`parseFloat` after the comma has been replaced by a period.) -/
def matchCents (m : List Char) : Nat :=
  let ip := m.takeWhile Char.isDigit
  let rest := m.dropWhile Char.isDigit
  match rest with
  | _ :: d1 :: d2 :: _ => digitsToNat ip * 100 + digitsToNat [d1, d2]
  | _ => digitsToNat ip * 100

/-- The decimal value denoted by a matched number string, in major currency
units: what `parseFloat(cleanPrice)` yields. -/
def matchValue (m : List Char) : ℚ := (matchCents m : ℚ) / 100

/-- Embedding of `parsePrice` (check-flights.js lines 554–582): extract the
first number match, reject values outside `[10, 2000]`, otherwise return
`round(value × 100)` cents. -/
def parsePrice (s : String) : Option ℤ :=
  match firstNumberMatch s.toList with
  | none => none
  | some m =>
    let price := matchValue m
    if price < 10 ∨ price > 2000 then none
    else some (round (price * 100))

/-- `(c : ℚ)/100 * 100 = c`: the matched value scaled back to cents. -/
lemma matchValue_mul_100 (m : List Char) : matchValue m * 100 = (matchCents m : ℚ) := by
  simp only [matchValue]
  rw [div_mul_cancel₀]
  norm_num

/-- C1.  If the first substring of the input matching the
`\d{1,4}(?:[.,]\d{2})?` pattern denotes a value `v` with `10 ≤ v ≤ 2000`
(comma decimal separator normalized to a period), then `parsePrice` accepts
and returns exactly `round(v × 100)` as an integer minor-unit amount, which
equals the exact cent value of the match. -/
theorem parsePrice_accepts_in_band (s : String) (m : List Char)
    (hm : firstNumberMatch s.toList = some m)
    (hlo : 10 ≤ matchValue m) (hhi : matchValue m ≤ 2000) :
    parsePrice s = some (round (matchValue m * 100)) ∧
      round (matchValue m * 100) = (matchCents m : ℤ) := by
  have hround : round (matchValue m * 100) = (matchCents m : ℤ) := by
    rw [matchValue_mul_100]
    exact round_natCast _
  refine ⟨?_, hround⟩
  unfold parsePrice
  rw [hm]
  simp only
  rw [if_neg]
  push_neg
  exact ⟨hlo, hhi⟩

/-- Witness for C1: on `"€45"` the match is `45` and the parser returns
`4500`; on `"45,50 €"` the match is `45,50` and the parser returns `4550`. -/
theorem parsePrice_accepts_in_band_witness :
    parsePrice "€45" = some 4500 ∧ parsePrice "45,50 €" = some 4550 := by
  have e1 : firstNumberMatch "€45".toList = some ['4', '5'] := by decide
  have c1 : matchCents ['4', '5'] = 4500 := by decide
  have e2 : firstNumberMatch "45,50 €".toList = some ['4', '5', ',', '5', '0'] := by decide
  have c2 : matchCents ['4', '5', ',', '5', '0'] = 4550 := by decide
  have h1 := parsePrice_accepts_in_band "€45" ['4', '5'] e1
    (by simp only [matchValue, c1]; norm_num) (by simp only [matchValue, c1]; norm_num)
  have h2 := parsePrice_accepts_in_band "45,50 €" ['4', '5', ',', '5', '0'] e2
    (by simp only [matchValue, c2]; norm_num) (by simp only [matchValue, c2]; norm_num)
  constructor
  · rw [h1.1, h1.2, c1]
    norm_num
  · rw [h2.1, h2.2, c2]
    norm_num

/-- C2.  The price parser is a total function (it can never throw), returns
`none` when the input has no numeric match, and returns `none` whenever the
first numeric candidate's value lies outside the band `[10, 2000]` in major
currency units. -/
theorem parsePrice_rejects (s : String) :
    (firstNumberMatch s.toList = none → parsePrice s = none) ∧
      ∀ m, firstNumberMatch s.toList = some m →
        matchValue m < 10 ∨ matchValue m > 2000 → parsePrice s = none := by
  constructor
  · intro h
    unfold parsePrice
    rw [h]
  · intro m hm hband
    unfold parsePrice
    rw [hm]
    simp only
    rw [if_pos hband]

/-- Witness for C2: `"€5"` (below band), `"€3000"` (above band) and
`"No flights found"` (no numeric match) are all rejected. -/
theorem parsePrice_rejects_witness :
    parsePrice "€5" = none ∧ parsePrice "€3000" = none ∧
      parsePrice "No flights found" = none := by
  have e1 : firstNumberMatch "€5".toList = some ['5'] := by decide
  have c1 : matchCents ['5'] = 500 := by decide
  have e2 : firstNumberMatch "€3000".toList = some ['3', '0', '0', '0'] := by decide
  have c2 : matchCents ['3', '0', '0', '0'] = 300000 := by decide
  have e3 : firstNumberMatch "No flights found".toList = none := by decide
  refine ⟨?_, ?_, ?_⟩
  · exact (parsePrice_rejects "€5").2 ['5'] e1
      (Or.inl (by simp only [matchValue, c1]; norm_num))
  · exact (parsePrice_rejects "€3000").2 ['3', '0', '0', '0'] e2
      (Or.inr (by simp only [matchValue, c2]; norm_num))
  · exact (parsePrice_rejects "No flights found").1 e3

/-! ## Data model (check-flights.js: the `searches` rows and their joined
`user_preferences`, and the `flight_results` rows built by
`saveFlightResults`). -/

/-- The `user_preferences` projection joined onto each search row. -/
structure UserPrefs where
  userId : String
  maxPriceRoundTrip : Nat
  alertEnabled : Bool
  alertEmail : String
deriving DecidableEq, Repr

/-- One `flight_searches` row as used by the batch runner. -/
structure Search where
  id : Nat
  origin : String
  destination : String
  destinationCity : String
  outboundDate : String
  returnDate : Option String
  googleFlightsUrl : String
  skyscannerUrl : String
  kayakUrl : String
  prefs : UserPrefs
deriving DecidableEq, Repr

/-- One `flight_results` row as built by `saveFlightResults`
(check-flights.js lines 480–548). -/
structure FlightResultRow where
  searchId : Nat
  userId : String
  origin : String
  destination : String
  destinationCity : String
  outboundDate : String
  returnDate : Option String
  priceCents : Nat
  currency : String
  platform : String
  bookingUrl : String
  isDeal : Bool
deriving DecidableEq, Repr

/-- The row `saveFlightResults` pushes for one platform price. -/
def mkResultRow (search : Search) (platform : String) (url : String) (price : Nat) :
    FlightResultRow :=
  { searchId := search.id
    userId := search.prefs.userId
    origin := search.origin
    destination := search.destination
    destinationCity := search.destinationCity
    outboundDate := search.outboundDate
    returnDate := search.returnDate
    priceCents := price
    currency := "EUR"
    platform := platform
    bookingUrl := url
    isDeal := price ≤ search.prefs.maxPriceRoundTrip }

/-- JavaScript truthiness of a platform price (`if (googlePrice)` and
`googlePrice || Infinity` treat `null` and `0` alike as absent). -/
def jsTruthy : Option Nat → Bool
  | none => false
  | some v => v != 0

/-- Embedding of `saveFlightResults`: one row is pushed per platform whose
price is truthy, in the fixed order Google, Skyscanner, Kayak. -/
def saveFlightResults (search : Search) (googlePrice skyscannerPrice kayakPrice : Option Nat) :
    List FlightResultRow :=
  (if jsTruthy googlePrice then
    [mkResultRow search "google" search.googleFlightsUrl (googlePrice.getD 0)] else []) ++
  (if jsTruthy skyscannerPrice then
    [mkResultRow search "skyscanner" search.skyscannerUrl (skyscannerPrice.getD 0)] else []) ++
  (if jsTruthy kayakPrice then
    [mkResultRow search "kayak" search.kayakUrl (kayakPrice.getD 0)] else [])

/-! ## Best price (check-flights.js lines 100–104)

`Math.min(googlePrice || Infinity, skyscannerPrice || Infinity,
kayakPrice || Infinity)` — `none` plays the role of `Infinity`. -/

/-- `x || Infinity`: a falsy price becomes `Infinity` (embedded `none`). -/
def orInfinity (p : Option Nat) : Option Nat :=
  if jsTruthy p then p else none

/-- `Math.min` on the extended naturals (`none` = `Infinity`). -/
def minOpt : Option Nat → Option Nat → Option Nat
  | none, b => b
  | some a, none => some a
  | some a, some b => some (min a b)

/-- Embedding of the `bestPrice` computation in `checkFlightPrices`. -/
def bestPrice (g s k : Option Nat) : Option Nat :=
  minOpt (orInfinity g) (minOpt (orInfinity s) (orInfinity k))

/-- Spec-side reading of C3: the list of prices of exactly those platforms
that returned a price, in platform order. -/
def returnedPrices (g s k : Option Nat) : List Nat :=
  [g, s, k].filterMap id

/-- Spec-side reading of C3: the minimum over the platforms that returned a
price (`none` when no platform returned one). -/
def specBestPrice (g s k : Option Nat) : Option Nat :=
  (returnedPrices g s k).foldr (fun x acc =>
    match acc with
    | none => some x
    | some y => some (min x y)) none

/-- The deal condition of check-flights.js line 106:
`bestPrice <= userBudget && alert_enabled` (with `Infinity ≤ budget`
false). -/
def dealCondition (g s k : Option Nat) (budget : Nat) (alertEnabled : Bool) : Bool :=
  match bestPrice g s k with
  | none => false
  | some v => decide (v ≤ budget) && alertEnabled

/-- C3.  For every processed task (with platform prices coming from
`parsePrice`, hence never the falsy `0`): the computed best price is the
minimum over exactly the platforms that returned a price; exactly one
persisted row per platform that returned a price (with its platform name
and cent price, platforms returning `NotFound` contribute no row); and a
deal summary is appended iff that minimum is ≤ the user's budget and the
user has alerts enabled. -/
theorem task_persistence_and_deal (search : Search) (g s k : Option Nat)
    (budget : Nat) (alertEnabled : Bool)
    (hg : g ≠ some 0) (hs : s ≠ some 0) (hk : k ≠ some 0) :
    bestPrice g s k = specBestPrice g s k ∧
      (saveFlightResults search g s k).map (fun r => (r.platform, r.priceCents)) =
        ([("google", g), ("skyscanner", s), ("kayak", k)].filterMap
          (fun p => p.2.map (fun v => (p.1, v)))) ∧
      (saveFlightResults search g s k).length = (returnedPrices g s k).length ∧
      (dealCondition g s k budget alertEnabled = true ↔
        (∃ v, bestPrice g s k = some v ∧ v ≤ budget) ∧ alertEnabled = true) := by
  rcases g with _ | a <;> rcases s with _ | b <;> rcases k with _ | c <;>
    refine ⟨?_, ?_, ?_, ?_⟩ <;>
    simp_all [bestPrice, orInfinity, jsTruthy, minOpt, specBestPrice, returnedPrices,
      saveFlightResults, mkResultRow, dealCondition, List.filterMap, and_assoc]

/-- Witness for C3: a task where Google returns `4500` cents (≤ the budget
`6000`) and the other platforms return `NotFound` yields exactly one
persisted row, a best price of `4500`, and a qualifying deal. -/
theorem task_persistence_and_deal_witness :
    (saveFlightResults
        { id := 1, origin := "OTP", destination := "BCN", destinationCity := "Barcelona",
          outboundDate := "2026-11-06", returnDate := some "2026-11-08",
          googleFlightsUrl := "g", skyscannerUrl := "s", kayakUrl := "k",
          prefs := { userId := "u1", maxPriceRoundTrip := 6000,
                     alertEnabled := true, alertEmail := "u1@x" } }
        (some 4500) none none).length = 1 ∧
      bestPrice (some 4500) none none = some 4500 ∧
      dealCondition (some 4500) none none 6000 true = true := by
  have h := task_persistence_and_deal
    { id := 1, origin := "OTP", destination := "BCN", destinationCity := "Barcelona",
      outboundDate := "2026-11-06", returnDate := some "2026-11-08",
      googleFlightsUrl := "g", skyscannerUrl := "s", kayakUrl := "k",
      prefs := { userId := "u1", maxPriceRoundTrip := 6000,
                 alertEnabled := true, alertEmail := "u1@x" } }
    (some 4500) none none 6000 true (by simp) (by simp) (by simp)
  refine ⟨?_, ?_, ?_⟩
  · rw [h.2.2.1]
    decide
  · rw [h.1]
    decide
  · exact h.2.2.2.mpr ⟨⟨4500, by rw [h.1]; decide, by norm_num⟩, rfl⟩

/-! ## Run-scoped deal batch (`dealsFound`, check-flights.js lines 23 and
106–124, consumed at lines 160–164)

The script runs once per process, so the module-level `dealsFound` object is
created empty at run start and iterated exactly once after the task loop.
A JS object with string keys is embedded as an association list with
distinct keys, new keys appended at the end (JS insertion order). -/

/-- One task's extraction outcome, as fed to the deal-collection step. -/
structure TaskOutcome where
  search : Search
  googlePrice : Option Nat
  skyscannerPrice : Option Nat
  kayakPrice : Option Nat
deriving DecidableEq, Repr

/-- The owning user of a task. -/
def taskUser (t : TaskOutcome) : String := t.search.prefs.userId

/-- Whether the task qualifies as a deal (line 106):
`bestPrice <= userBudget && alert_enabled`. -/
def taskQualifies (t : TaskOutcome) : Bool :=
  dealCondition t.googlePrice t.skyscannerPrice t.kayakPrice
    t.search.prefs.maxPriceRoundTrip t.search.prefs.alertEnabled

/-- The finite best price of a task (only used where the deal condition
guarantees one exists). -/
def bestPriceVal (t : TaskOutcome) : Nat :=
  (bestPrice t.googlePrice t.skyscannerPrice t.kayakPrice).getD 0

/-- The deal summary pushed at lines 116–123)= — note `price` is the best
price divided by 100, in major units. -/
structure DealItem where
  destination : String
  outboundDate : String
  returnDate : Option String
  price : ℚ
  googleUrl : String
  skyscannerUrl : String
deriving DecidableEq, Repr

/-- Build the deal summary of a task (lines 116–123). -/
def mkDeal (t : TaskOutcome) : DealItem :=
  { destination := t.search.destinationCity
    outboundDate := t.search.outboundDate
    returnDate := t.search.returnDate
    price := (bestPriceVal t : ℚ) / 100
    googleUrl := t.search.googleFlightsUrl
    skyscannerUrl := t.search.skyscannerUrl }

/-- One user's entry in `dealsFound` (lines 109–113). -/
structure UserEntry where
  email : String
  budget : ℚ
  deals : List DealItem
deriving DecidableEq, Repr

/-- The `dealsFound` object: user id → entry, insertion-ordered. -/
abbrev DealBatch := List (String × UserEntry)

/-- `dealsFound[uid]` update: push onto an existing entry, or append a new
entry (created with the user's email and major-unit budget) holding the one
deal. -/
def insertDeal (u email : String) (budget : ℚ) (d : DealItem) : DealBatch → DealBatch
  | [] => [(u, { email := email, budget := budget, deals := [d] })]
  | e :: rest =>
    if e.1 = u then (e.1, ⟨e.2.email, e.2.budget, e.2.deals ++ [d]⟩) :: rest
    else e :: insertDeal u email budget d rest

/-- The deal-collection step for one task (lines 106–124). -/
def updateBatch (batch : DealBatch) (t : TaskOutcome) : DealBatch :=
  if taskQualifies t then
    insertDeal (taskUser t) t.search.prefs.alertEmail
      ((t.search.prefs.maxPriceRoundTrip : ℚ) / 100) (mkDeal t) batch
  else batch

/-- The deal batch accumulated over a whole run, starting empty. -/
def runDeals (tasks : List TaskOutcome) : DealBatch :=
  tasks.foldl updateBatch []

/-- The deals recorded for one user in the batch (`[]` if no entry). -/
def dealsOfUser (batch : DealBatch) (u : String) : List DealItem :=
  match batch.find? (fun e => e.1 == u) with
  | none => []
  | some e => e.2.deals

lemma dealsOfUser_nil (u : String) : dealsOfUser [] u = [] := rfl

lemma dealsOfUser_cons_pos (e : String × UserEntry) (rest : DealBatch) (u : String)
    (h : e.1 = u) : dealsOfUser (e :: rest) u = e.2.deals := by
  have hp : ((fun (x : String × UserEntry) => x.1 == u) e) = true := by simp [h]
  simp only [dealsOfUser]
  rw [List.find?_cons_of_pos rest hp]

lemma dealsOfUser_cons_neg (e : String × UserEntry) (rest : DealBatch) (u : String)
    (h : ¬ e.1 = u) : dealsOfUser (e :: rest) u = dealsOfUser rest u := by
  have hp : ¬ ((fun (x : String × UserEntry) => x.1 == u) e) = true := by simp [h]
  simp only [dealsOfUser]
  rw [List.find?_cons_of_neg rest hp]

lemma dealsOfUser_insertDeal (u' email : String) (budget : ℚ) (d : DealItem)
    (batch : DealBatch) (u : String) :
    dealsOfUser (insertDeal u' email budget d batch) u =
      dealsOfUser batch u ++ (if u' = u then [d] else []) := by
  induction batch with
  | nil =>
    rcases eq_or_ne u' u with h | h
    · subst h
      rw [show insertDeal u' email budget d [] = [(u', ⟨email, budget, [d]⟩)] from rfl,
        dealsOfUser_cons_pos _ _ _ rfl, dealsOfUser_nil]
      simp
    · rw [show insertDeal u' email budget d [] = [(u', ⟨email, budget, [d]⟩)] from rfl,
        dealsOfUser_cons_neg _ _ _ h, dealsOfUser_nil]
      simp [h]
  | cons e rest ih =>
    rcases eq_or_ne e.1 u' with he | he
    · rw [show insertDeal u' email budget d (e :: rest) =
          (e.1, ⟨e.2.email, e.2.budget, e.2.deals ++ [d]⟩) :: rest from by
        simp [insertDeal, he]]
      rcases eq_or_ne e.1 u with hu | hu
      · rw [dealsOfUser_cons_pos (e.1, ⟨e.2.email, e.2.budget, e.2.deals ++ [d]⟩) rest u hu,
          dealsOfUser_cons_pos e rest u hu]
        have h2 : u' = u := by rw [← he, hu]
        simp [h2]
      · rw [dealsOfUser_cons_neg (e.1, ⟨e.2.email, e.2.budget, e.2.deals ++ [d]⟩) rest u hu,
          dealsOfUser_cons_neg e rest u hu]
        have h2 : ¬ u' = u := by rw [← he]; exact hu
        simp [h2]
    · rw [show insertDeal u' email budget d (e :: rest) =
          e :: insertDeal u' email budget d rest from by
        simp [insertDeal, he]]
      rcases eq_or_ne e.1 u with hu | hu
      · rw [dealsOfUser_cons_pos e (insertDeal u' email budget d rest) u hu,
          dealsOfUser_cons_pos e rest u hu]
        have h2 : ¬ u' = u := fun hh => he (hu.trans hh.symm)
        simp [h2]
      · rw [dealsOfUser_cons_neg e (insertDeal u' email budget d rest) u hu,
          dealsOfUser_cons_neg e rest u hu]
        exact ih

lemma dealsOfUser_updateBatch (batch : DealBatch) (t : TaskOutcome) (u : String) :
    dealsOfUser (updateBatch batch t) u =
      dealsOfUser batch u ++
        (if taskQualifies t && decide (taskUser t = u) then [mkDeal t] else []) := by
  by_cases hq : taskQualifies t
  · by_cases hu : taskUser t = u <;>
      simp [updateBatch, hq, hu, dealsOfUser_insertDeal]
  · simp [updateBatch, hq]

lemma dealsOfUser_foldl (tasks : List TaskOutcome) (batch : DealBatch) (u : String) :
    dealsOfUser (tasks.foldl updateBatch batch) u =
      dealsOfUser batch u ++
        (tasks.filter (fun t => taskQualifies t && decide (taskUser t = u))).map mkDeal := by
  induction tasks generalizing batch with
  | nil => simp
  | cons t ts ih =>
    rw [List.foldl_cons, ih, dealsOfUser_updateBatch]
    by_cases hc : (taskQualifies t && decide (taskUser t = u)) = true <;>
      simp [List.filter_cons, hc]

lemma keys_insertDeal (u' email : String) (budget : ℚ) (d : DealItem)
    (batch : DealBatch) :
    (insertDeal u' email budget d batch).map Prod.fst =
      if u' ∈ batch.map Prod.fst then batch.map Prod.fst
      else batch.map Prod.fst ++ [u'] := by
  induction batch with
  | nil => simp [insertDeal]
  | cons e rest ih =>
    by_cases he : e.1 = u'
    · simp [insertDeal, he]
    · by_cases hm : u' ∈ rest.map Prod.fst <;>
        simp [insertDeal, he, hm, ih, Ne.symm he]

lemma nodup_keys_insertDeal (u' email : String) (budget : ℚ) (d : DealItem)
    (batch : DealBatch) (h : (batch.map Prod.fst).Nodup) :
    ((insertDeal u' email budget d batch).map Prod.fst).Nodup := by
  rw [keys_insertDeal]
  by_cases hm : u' ∈ batch.map Prod.fst
  · simpa [hm] using h
  · simpa [hm] using List.Nodup.append h (List.nodup_singleton u') (by simpa using hm)

lemma nonempty_insertDeal (u' email : String) (budget : ℚ) (d : DealItem)
    (batch : DealBatch) (h : ∀ e ∈ batch, e.2.deals ≠ [])
    (e : String × UserEntry) (he : e ∈ insertDeal u' email budget d batch) :
    e.2.deals ≠ [] := by
  induction batch with
  | nil =>
    simp [insertDeal] at he
    subst he
    simp
  | cons e0 rest ih =>
    by_cases h0 : e0.1 = u'
    · simp only [insertDeal, if_pos h0] at he
      rcases List.mem_cons.1 he with h1 | h1
      · subst h1
        simp
      · exact h e (List.mem_cons_of_mem _ h1)
    · simp only [insertDeal, if_neg h0] at he
      rcases List.mem_cons.1 he with h1 | h1
      · subst h1
        exact h e (List.mem_cons_self _ _)
      · exact ih (fun x hx => h x (List.mem_cons_of_mem _ hx)) h1

lemma batch_invariant_foldl (tasks : List TaskOutcome) (batch : DealBatch)
    (hne : ∀ e ∈ batch, e.2.deals ≠ []) (hnd : (batch.map Prod.fst).Nodup) :
    (∀ e ∈ tasks.foldl updateBatch batch, e.2.deals ≠ []) ∧
      ((tasks.foldl updateBatch batch).map Prod.fst).Nodup := by
  induction tasks generalizing batch with
  | nil => exact ⟨hne, hnd⟩
  | cons t ts ih =>
    rw [List.foldl_cons]
    apply ih
    · intro e he
      unfold updateBatch at he
      split at he
      · exact nonempty_insertDeal _ _ _ _ batch hne e he
      · exact hne e he
    · unfold updateBatch
      split
      · exact nodup_keys_insertDeal _ _ _ _ batch hnd
      · exact hnd

/-- C4.  The run-scoped deal batch starts empty and, after processing all
tasks: (a) each user's recorded deal list is exactly the summaries of all
of that user's qualifying tasks from the run, in task order — so two
qualifying tasks of one user end up in the single entry consumed as one
notification; (b) every entry holds a non-empty deal list, so the
notification sender is never called with an empty list; (c) the user keys
are pairwise distinct, so the end-of-run loop dispatches exactly one
notification per user with at least one qualifying deal. -/
theorem deal_batch_aggregation (tasks : List TaskOutcome) (u : String) :
    dealsOfUser (runDeals tasks) u =
      ((tasks.filter (fun t => taskQualifies t && decide (taskUser t = u))).map mkDeal) ∧
      (∀ e ∈ runDeals tasks, e.2.deals ≠ []) ∧
      ((runDeals tasks).map Prod.fst).Nodup := by
  refine ⟨?_, ?_, ?_⟩
  · simpa [dealsOfUser] using dealsOfUser_foldl tasks [] u
  · exact (batch_invariant_foldl tasks [] (by simp) (by simp)).1
  · exact (batch_invariant_foldl tasks [] (by simp) (by simp)).2

/-- An example task: Barcelona found on Google at 4500 cents, budget 6000. -/
def taskBcn : TaskOutcome :=
  { search :=
      { id := 1, origin := "OTP", destination := "BCN", destinationCity := "Barcelona",
        outboundDate := "2026-11-06", returnDate := some "2026-11-08",
        googleFlightsUrl := "gB", skyscannerUrl := "sB", kayakUrl := "kB",
        prefs := { userId := "u1", maxPriceRoundTrip := 6000,
                   alertEnabled := true, alertEmail := "u1@x" } }
    googlePrice := some 4500
    skyscannerPrice := none
    kayakPrice := none }

/-- An example task for the same user: Lisbon found on Skyscanner at 5000. -/
def taskLis : TaskOutcome :=
  { search :=
      { id := 2, origin := "OTP", destination := "LIS", destinationCity := "Lisbon",
        outboundDate := "2026-11-13", returnDate := some "2026-11-15",
        googleFlightsUrl := "gL", skyscannerUrl := "sL", kayakUrl := "kL",
        prefs := { userId := "u1", maxPriceRoundTrip := 6000,
                   alertEnabled := true, alertEmail := "u1@x" } }
    googlePrice := none
    skyscannerPrice := some 5000
    kayakPrice := none }

/-- Witness for C4: two qualifying tasks of the same user produce a single
entry holding both deals, and the batch's user keys are duplicate-free. -/
theorem deal_batch_aggregation_witness :
    dealsOfUser (runDeals [taskBcn, taskLis]) "u1" = [mkDeal taskBcn, mkDeal taskLis] ∧
      ((runDeals [taskBcn, taskLis]).map Prod.fst).Nodup ∧
      (∀ e ∈ runDeals [taskBcn, taskLis], e.2.deals ≠ []) := by
  have h := deal_batch_aggregation [taskBcn, taskLis] "u1"
  refine ⟨?_, h.2.2, h.2.1⟩
  rw [h.1, show List.filter (fun t => taskQualifies t && decide (taskUser t = "u1"))
      [taskBcn, taskLis] = [taskBcn, taskLis] from by decide]
  rfl

lemma bestPrice_mem (g s k : Option Nat) (v : Nat)
    (hg : g ≠ some 0) (hs : s ≠ some 0) (hk : k ≠ some 0)
    (hv : bestPrice g s k = some v) : v ∈ returnedPrices g s k := by
  rcases g with _ | a <;> rcases s with _ | b <;> rcases k with _ | c <;>
    simp_all [bestPrice, orInfinity, jsTruthy, minOpt, returnedPrices] <;> omega

lemma exists_row_of_mem (search : Search) (g s k : Option Nat) (v : Nat)
    (hg : g ≠ some 0) (hs : s ≠ some 0) (hk : k ≠ some 0)
    (hmem : v ∈ returnedPrices g s k) :
    ∃ r ∈ saveFlightResults search g s k, r.priceCents = v := by
  rcases g with _ | a <;> rcases s with _ | b <;> rcases k with _ | c <;>
    simp_all [returnedPrices, saveFlightResults, jsTruthy, mkResultRow] <;> omega

/-- C10.  At the notification boundary the amounts are converted from minor
to major units: the deal summary of a task with best price `v` carries
`price = v / 100` (so `price × 100 = v` exactly, over `ℚ`), the user entry
carries `budget = maxPriceRoundTrip / 100`, while some persisted row keeps
`price_cents = v` as the integer minor-unit amount — the two
representations differ by exactly a factor of 100. -/
theorem notification_unit_conversion (search : Search) (g s k : Option Nat) (v : Nat)
    (hg : g ≠ some 0) (hs : s ≠ some 0) (hk : k ≠ some 0)
    (hv : bestPrice g s k = some v) :
    (mkDeal ⟨search, g, s, k⟩).price * 100 = (v : ℚ) ∧
      (∀ e ∈ runDeals [⟨search, g, s, k⟩],
        e.2.budget * 100 = (search.prefs.maxPriceRoundTrip : ℚ)) ∧
      ∃ r ∈ saveFlightResults search g s k,
        r.priceCents = v ∧ (mkDeal ⟨search, g, s, k⟩).price * 100 = (r.priceCents : ℚ) := by
  have h1 : bestPriceVal ⟨search, g, s, k⟩ = v := by
    simp [bestPriceVal, hv]
  have hprice : (mkDeal ⟨search, g, s, k⟩).price * 100 = (v : ℚ) := by
    simp only [mkDeal, h1]
    rw [div_mul_cancel₀]
    norm_num
  refine ⟨hprice, ?_, ?_⟩
  · intro e he
    simp only [runDeals, List.foldl_cons, List.foldl_nil, updateBatch] at he
    split at he
    · simp only [insertDeal, List.mem_singleton] at he
      subst he
      rw [div_mul_cancel₀]
      norm_num
    · simp at he
  · obtain ⟨r, hr, hrv⟩ :=
      exists_row_of_mem search g s k v hg hs hk (bestPrice_mem g s k v hg hs hk hv)
    exact ⟨r, hr, hrv, by rw [hrv]; exact hprice⟩

/-- Witness for C10: best price `4510` cents yields a deal summary price of
`45.10` (a non-integer rational) with `price × 100 = 4510`, and a persisted
row carrying `4510` integer cents. -/
theorem notification_unit_conversion_witness :
    (mkDeal ⟨taskBcn.search, some 4510, none, none⟩).price * 100 = ((4510 : Nat) : ℚ) ∧
      ∃ r ∈ saveFlightResults taskBcn.search (some 4510) none none, r.priceCents = 4510 := by
  have h := notification_unit_conversion taskBcn.search (some 4510) none none 4510
    (by simp) (by simp) (by simp) (by decide)
  obtain ⟨r, hr, hrv, _⟩ := h.2.2
  exact ⟨h.1, r, hr, hrv⟩

/-! ## Task lifecycle: due-search selection (check-flights.js lines 33–55)
and terminal status updates with 24h backoff (lines 126–154, 596–600). -/

/-- One stored `flight_searches` row as seen by the due-search query; the
joined `user_preferences` ride along inside `search`. -/
structure StoredSearch where
  search : Search
  status : String
  nextCheckAt : Option Nat
deriving DecidableEq, Repr

/-- The due predicate of the query (lines 44–45): `status = 'pending'` and
(`next_check_at` is null OR `next_check_at < now`, strictly). -/
def isDue (now : Nat) (r : StoredSearch) : Bool :=
  r.status == "pending" &&
    (match r.nextCheckAt with
     | none => true
     | some t => decide (t < now))

/-- The due-search selection (lines 33–46): the rows satisfying the due
predicate, capped at the batch size `limit(50)`. -/
def selectDueSearches (rows : List StoredSearch) (now : Nat) : List StoredSearch :=
  (rows.filter (isDue now)).take 50

/-- How a run begins (lines 52–55): with no due search the run logs and
returns cleanly without launching a browser; otherwise it proceeds with the
selected batch. -/
inductive RunStart
  | noWork
  | proceed (searches : List StoredSearch)
deriving DecidableEq, Repr

/-- The selection step at the top of `checkFlightPrices`. -/
def startRun (rows : List StoredSearch) (now : Nat) : RunStart :=
  let searches := selectDueSearches rows now
  if searches.isEmpty then .noWork else .proceed searches

/-- C8.  The due-search selection returns only rows with `status = pending`
and (`nextCheckAt` unset OR `nextCheckAt < now`) — each row carrying its
owner's joined budget/alert settings — capped at the fixed batch size 50;
and when nothing is due the run terminates cleanly (`noWork`), not with an
error. -/
theorem due_selection (rows : List StoredSearch) (now : Nat) :
    (∀ r ∈ selectDueSearches rows now,
      r.status = "pending" ∧
        (r.nextCheckAt = none ∨ ∃ c, r.nextCheckAt = some c ∧ c < now)) ∧
      (selectDueSearches rows now).length ≤ 50 ∧
      (selectDueSearches rows now = [] → startRun rows now = .noWork) := by
  refine ⟨?_, ?_, ?_⟩
  · intro r hr
    have hmem : r ∈ rows.filter (isDue now) := List.take_subset 50 _ hr
    have hdue : isDue now r = true := (List.mem_filter.1 hmem).2
    unfold isDue at hdue
    rw [Bool.and_eq_true] at hdue
    obtain ⟨h1, h2⟩ := hdue
    refine ⟨by simpa using h1, ?_⟩
    rcases hn : r.nextCheckAt with _ | c
    · exact Or.inl rfl
    · rw [hn] at h2
      exact Or.inr ⟨c, rfl, by simpa using h2⟩
  · exact (List.length_take 50 (rows.filter (isDue now))).le.trans (min_le_left _ _)
  · intro h
    simp [startRun, h]

/-- Witness for C8: of three stored rows — pending and never checked,
already completed, and pending but not yet due — exactly the first is
selected, and it satisfies the due conditions; an empty store yields
`noWork`. -/
theorem due_selection_witness :
    selectDueSearches
        [⟨taskBcn.search, "pending", none⟩,
         ⟨taskLis.search, "completed", none⟩,
         ⟨taskLis.search, "pending", some 2000⟩] 1000 =
      [⟨taskBcn.search, "pending", none⟩] ∧
      (⟨taskBcn.search, "pending", none⟩ : StoredSearch).status = "pending" ∧
      startRun [] 1000 = .noWork := by
  have hsel : selectDueSearches
      [⟨taskBcn.search, "pending", none⟩,
       ⟨taskLis.search, "completed", none⟩,
       ⟨taskLis.search, "pending", some 2000⟩] 1000 =
      [⟨taskBcn.search, "pending", none⟩] := by decide
  have h := due_selection
    [⟨taskBcn.search, "pending", none⟩,
     ⟨taskLis.search, "completed", none⟩,
     ⟨taskLis.search, "pending", some 2000⟩] 1000
  have hmem : (⟨taskBcn.search, "pending", none⟩ : StoredSearch) ∈
      selectDueSearches
        [⟨taskBcn.search, "pending", none⟩,
         ⟨taskLis.search, "completed", none⟩,
         ⟨taskLis.search, "pending", some 2000⟩] 1000 := by
    rw [hsel]
    exact List.mem_singleton.2 rfl
  exact ⟨hsel, (h.1 _ hmem).1, ((due_selection [] 1000).2.2 (by decide))⟩

/-- Terminal task status written at lines 126–134 (success path) and
146–153 (failure path). -/
inductive TaskStatus
  | completed
  | failed
deriving DecidableEq, Repr

/-- `getNextCheckTime` (lines 596–600): 24 hours after now, in ms. -/
def getNextCheckTime (now : Nat) : Nat := now + 24 * 60 * 60 * 1000

/-- The `flight_searches` update written for one task at the end of its
processing. -/
structure StatusUpdate where
  searchId : Nat
  status : TaskStatus
  lastCheckedAt : Nat
  nextCheckAt : Nat
deriving DecidableEq, Repr

/-- The per-task terminal transition: `completed` when no exception escaped
the per-task try block, `failed` when one did (extractor-internal failures
are already converted to `NotFound` and do not count); either way
`nextCheckAt` advances by the fixed 24h backoff. -/
def processTaskStatus (now : Nat) (t : TaskOutcome) (orchestrationError : Bool) :
    StatusUpdate :=
  { searchId := t.search.id
    status := if orchestrationError then .failed else .completed
    lastCheckedAt := now
    nextCheckAt := getNextCheckTime now }

/-- The terminal updates of one run: one per selected task, in loop order. -/
def runStatusUpdates (now : Nat) (tasks : List (TaskOutcome × Bool)) : List StatusUpdate :=
  tasks.map (fun p => processTaskStatus now p.1 p.2)

/-- C5.  Every task selected into a run receives exactly one terminal
status update (one update per selected task, in order), each update is
`completed` or `failed`, and `nextCheckAt` is always advanced by the fixed
24-hour backoff; a task all of whose platform extractors return `NotFound`
persists zero rows and still completes with `nextCheckAt` advanced. -/
theorem task_terminal_status (now : Nat) (tasks : List (TaskOutcome × Bool)) :
    (runStatusUpdates now tasks).map (fun u => u.searchId) =
        tasks.map (fun p => p.1.search.id) ∧
      (∀ u ∈ runStatusUpdates now tasks,
        (u.status = .completed ∨ u.status = .failed) ∧
          u.nextCheckAt = now + 24 * 60 * 60 * 1000) ∧
      (∀ t : TaskOutcome, t.googlePrice = none → t.skyscannerPrice = none →
        t.kayakPrice = none →
        saveFlightResults t.search t.googlePrice t.skyscannerPrice t.kayakPrice = [] ∧
          (processTaskStatus now t false).status = .completed ∧
          (processTaskStatus now t false).nextCheckAt = getNextCheckTime now) := by
  refine ⟨?_, ?_, ?_⟩
  · simp [runStatusUpdates, processTaskStatus]
  · intro u hu
    obtain ⟨p, _, rfl⟩ := List.mem_map.1 hu
    constructor
    · rcases p.2 with _ | _ <;> simp [processTaskStatus]
    · rfl
  · intro t h1 h2 h3
    refine ⟨?_, rfl, rfl⟩
    rw [h1, h2, h3]
    simp [saveFlightResults, jsTruthy]

/-- Witness for C5: one task with every platform returning `NotFound`
yields one `completed` update with `nextCheckAt = now + 24h` and zero
persisted rows. -/
theorem task_terminal_status_witness :
    runStatusUpdates 1000 [(⟨taskBcn.search, none, none, none⟩, false)] =
        [⟨1, .completed, 1000, 1000 + 24 * 60 * 60 * 1000⟩] ∧
      saveFlightResults taskBcn.search none none none = [] := by
  have h := task_terminal_status 1000 [(⟨taskBcn.search, none, none, none⟩, false)]
  have h2 := (h.2.2 ⟨taskBcn.search, none, none, none⟩ rfl rfl rfl).1
  exact ⟨by decide, h2⟩

/-! ## Platform extractor failure semantics (`checkGoogleFlights`,
check-flights.js lines 177–292; `checkKayak`, lines 388–475)

Each extractor opens a page, runs a body whose awaited steps may throw,
catches every exception at the extractor boundary (`catch` returns `null`),
and closes the page in a `finally` block.  The body is embedded as a
computation over an "open page" flag (`true` = the browsing context is
still open) that can end in an exception; the outcome of each awaited step
is an oracle supplied as a trace. -/

/-- A page computation: from the open flag, a result or exception together
with the new open flag.  An exception by itself never closes the page. -/
def PageM (α : Type) : Type := Bool → Except Unit α × Bool

/-- Return. -/
def PageM.pure {α : Type} (a : α) : PageM α := fun s => (.ok a, s)

/-- Sequencing: a thrown exception skips the rest of the body. -/
def PageM.bind {α β : Type} (m : PageM α) (f : α → PageM β) : PageM β := fun s =>
  match m s with
  | (.ok a, s1) => f a s1
  | (.error e, s1) => (.error e, s1)

/-- An awaited step that may throw but does not touch the page flag. -/
def step {α : Type} (e : Except Unit α) : PageM α := fun s => (e, s)

/-- `await page.close()` in the `finally` block: closes the page. -/
def closePage : PageM Unit := fun _ => (.ok (), false)

/-- `try { body } catch { return dflt } finally { fin }`: the `finally`
computation runs on both the success and the caught-exception path. -/
def tryCatchFinally {α : Type} (body : PageM α) (dflt : α) (fin : PageM Unit) :
    PageM α := fun s =>
  match body s with
  | (.ok a, s1) =>
    match fin s1 with
    | (.ok _, s2) => (.ok a, s2)
    | (.error e, s2) => (.error e, s2)
  | (.error _, s1) =>
    match fin s1 with
    | (.ok _, s2) => (.ok dflt, s2)
    | (.error e, s2) => (.error e, s2)

/-- An inner `try { m } catch { /* logged and ignored */ }` (the consent
handler, the wait-for-results and the price-extraction blocks). -/
def tryIgnore {α : Type} (m : PageM α) (dflt : α) : PageM α := fun s =>
  match m s with
  | (.ok a, s1) => (.ok a, s1)
  | (.error _, s1) => (.ok dflt, s1)

/-- Oracle for one `checkGoogleFlights` invocation: the outcome of each
awaited step (`error` = that step throws). -/
structure GoogleTrace where
  setUserAgent : Except Unit Unit
  navigate : Except Unit Unit
  consent : Except Unit Bool
  waitForResults : Except Unit Unit
  screenshot : Except Unit Unit
  findPriceText : Except Unit (Option String)

/-- Embedding of `checkGoogleFlights`: user agent, navigation, consent
handling (inner try), waiting (inner try), screenshot, text scan (inner
try), then `parsePrice` on the found text; all wrapped in
try/catch-null/finally-close. -/
def checkGoogleFlights (tr : GoogleTrace) : PageM (Option ℤ) :=
  tryCatchFinally
    (PageM.bind (step tr.setUserAgent) fun _ =>
     PageM.bind (step tr.navigate) fun _ =>
     PageM.bind (tryIgnore (PageM.bind (step tr.consent) fun _ => PageM.pure ()) ()) fun _ =>
     PageM.bind (tryIgnore (step tr.waitForResults) ()) fun _ =>
     PageM.bind (step tr.screenshot) fun _ =>
     PageM.bind (tryIgnore (step tr.findPriceText) none) fun priceText =>
       match priceText with
       | none => PageM.pure none
       | some txt => PageM.pure (parsePrice txt))
    none
    closePage

/-- Oracle for one `checkKayak` invocation. -/
structure KayakTrace where
  setUserAgent : Except Unit Unit
  navigate : Except Unit Unit
  screenshot : Except Unit Unit
  findPriceText : Except Unit (Option String)

/-- Embedding of `checkKayak`: user agent, navigation, screenshot,
selector-based text scan (inner try), then `parsePrice`; wrapped in
try/catch-null/finally-close. -/
def checkKayak (tr : KayakTrace) : PageM (Option ℤ) :=
  tryCatchFinally
    (PageM.bind (step tr.setUserAgent) fun _ =>
     PageM.bind (step tr.navigate) fun _ =>
     PageM.bind (step tr.screenshot) fun _ =>
     PageM.bind (tryIgnore (step tr.findPriceText) none) fun priceText =>
       match priceText with
       | none => PageM.pure none
       | some txt => PageM.pure (parsePrice txt))
    none
    closePage

/-- C6.  For every possible combination of step outcomes (any awaited step
throwing or not, any text found or not), `checkGoogleFlights` and
`checkKayak` end without a propagating exception (the result is `.ok`, so
no failure can abort the batch) and with the browsing context released
(`false`), on success and failure alike. -/
theorem extractor_isolation (trG : GoogleTrace) (trK : KayakTrace) :
    (∃ v, checkGoogleFlights trG true = (.ok v, false)) ∧
      (∃ v, checkKayak trK true = (.ok v, false)) := by
  constructor
  · obtain ⟨s1, s2, s3, s4, s5, s6⟩ := trG
    cases s1 <;> cases s2 <;> cases s3 <;> cases s4 <;> cases s5 <;>
      rcases s6 with _ | (_ | txt) <;> exact ⟨_, rfl⟩
  · obtain ⟨s1, s2, s3, s4⟩ := trK
    cases s1 <;> cases s2 <;> cases s3 <;>
      rcases s4 with _ | (_ | txt) <;> exact ⟨_, rfl⟩

/-! ## Trip date enumerator (date utilities bundled with check-flights.js:
`getDatesForDaysOfWeek` and `generateTripCombinations`)

Calendar dates are embedded as day numbers; `getDay` becomes `d % 7` (the
weekday sets are arbitrary parameters, so the epoch offset is irrelevant).
The `[today, today + monthsAhead]` window enters only through its two
endpoints, embedded as the day numbers `start` and `endDay`; for a fixed
"today" and horizon these are fixed, making the enumeration a pure function
of its inputs (determinism). -/

/-- `eachDayOfInterval`: every day from `start` to `endDay`, inclusive. -/
def eachDayOfInterval (start endDay : Nat) : List Nat :=
  (List.range (endDay + 1 - start)).map (start + ·)

/-- `getDatesForDaysOfWeek`: the days of the window whose weekday lies in
`dayNumbers`. -/
def getDatesForDaysOfWeek (dayNumbers : List Nat) (start endDay : Nat) : List Nat :=
  (eachDayOfInterval start endDay).filter (fun d => dayNumbers.contains (d % 7))

/-- The body of the `generateTripCombinations` loop for one outbound date:
`validReturns` is the list of return dates strictly after the outbound
date, `validReturns[0]` is taken, and the pair is kept only if the gap is
at most 7 days. -/
def pickReturn (returnDates : List Nat) (outbound : Nat) : Option (Nat × Nat) :=
  match returnDates.filter (fun r => outbound < r) with
  | [] => none
  | closest :: _ =>
    if closest - outbound ≤ 7 then some (outbound, closest) else none

/-- `generateTripCombinations`: run `pickReturn` over every outbound date. -/
def generateTripCombinations (outboundDays returnDays : List Nat) (start endDay : Nat) :
    List (Nat × Nat) :=
  let outboundDates := getDatesForDaysOfWeek outboundDays start endDay
  let returnDates := getDatesForDaysOfWeek returnDays start endDay
  outboundDates.filterMap (pickReturn returnDates)

lemma pairwise_eachDayOfInterval (start endDay : Nat) :
    (eachDayOfInterval start endDay).Pairwise (· < ·) := by
  unfold eachDayOfInterval
  rw [List.pairwise_map]
  exact (List.pairwise_lt_range _).imp (fun h => by omega)

lemma pairwise_getDatesForDaysOfWeek (dayNumbers : List Nat) (start endDay : Nat) :
    (getDatesForDaysOfWeek dayNumbers start endDay).Pairwise (· < ·) :=
  (pairwise_eachDayOfInterval start endDay).filter _

lemma head_filter_min {l : List Nat} {p : Nat → Bool} {h : Nat} {t : List Nat}
    (hs : l.Pairwise (· < ·)) (he : l.filter p = h :: t) :
    h ∈ l ∧ p h = true ∧ ∀ x ∈ l, p x = true → h ≤ x := by
  induction l with
  | nil => simp at he
  | cons a l ih =>
    rw [List.pairwise_cons] at hs
    by_cases pa : p a = true
    · rw [List.filter_cons_of_pos pa, List.cons.injEq] at he
      obtain ⟨rfl, rfl⟩ := he
      refine ⟨List.mem_cons_self _ _, pa, ?_⟩
      intro x hx _
      rcases List.mem_cons.1 hx with rfl | hx
      · exact le_refl x
      · exact le_of_lt (hs.1 x hx)
    · rw [List.filter_cons_of_neg pa] at he
      obtain ⟨hm, hp, hmin⟩ := ih hs.2 he
      refine ⟨List.mem_cons_of_mem _ hm, hp, ?_⟩
      intro x hx hpx
      rcases List.mem_cons.1 hx with rfl | hx
      · exact absurd hpx pa
      · exact hmin x hx hpx

lemma pickReturn_some (rd : List Nat) (o : Nat) (q : Nat × Nat)
    (h : pickReturn rd o = some q) :
    q.1 = o ∧ q.2 - o ≤ 7 ∧ ∃ rest, rd.filter (fun r => o < r) = q.2 :: rest := by
  unfold pickReturn at h
  split at h
  · simp at h
  · rename_i closest rest heq
    split at h
    · rename_i hgap
      obtain rfl : (o, closest) = q := by injection h
      exact ⟨rfl, hgap, rest, heq⟩
    · simp at h

/-- C7.  For a fixed window (fixed "today" and horizon) and any weekday
sets, every pair returned by the trip enumerator satisfies
`0 < return − outbound ≤ 7`, and its return date is the earliest date of
the return-weekday enumeration strictly after the outbound date; pairs
whose gap exceeds 7 days are discarded.  (Determinism holds because the
embedding is a pure function of `(outboundDays, returnDays, start,
endDay)`.) -/
theorem trip_pairs_valid (outboundDays returnDays : List Nat) (start endDay : Nat) :
    ∀ q ∈ generateTripCombinations outboundDays returnDays start endDay,
      0 < q.2 - q.1 ∧ q.2 - q.1 ≤ 7 ∧
        q.2 ∈ getDatesForDaysOfWeek returnDays start endDay ∧ q.1 < q.2 ∧
        ∀ r ∈ getDatesForDaysOfWeek returnDays start endDay, q.1 < r → q.2 ≤ r := by
  intro q hq
  obtain ⟨outbound, hmemO, hf⟩ := List.mem_filterMap.1 hq
  obtain ⟨h1, hgap, rest, heq⟩ := pickReturn_some _ _ _ hf
  obtain ⟨hmem, hlt, hmin⟩ :=
    head_filter_min (pairwise_getDatesForDaysOfWeek returnDays start endDay) heq
  have hlt2 : outbound < q.2 := by simpa using hlt
  refine ⟨by omega, by omega, hmem, by omega, ?_⟩
  intro r hr hor
  refine hmin r hr ?_
  simp only [decide_eq_true_eq]
  omega

/-- Witness for C7: with outbound weekday `5`, return weekday `0` and
window `[0, 30]`, the pair `(5, 7)` is produced and satisfies the gap
bound; the earliest matching return date after `5` is `7`. -/
theorem trip_pairs_valid_witness :
    (5, 7) ∈ generateTripCombinations [5] [0] 0 30 ∧
      0 < 7 - 5 ∧ 7 - 5 ≤ 7 ∧ (7 : Nat) ∈ getDatesForDaysOfWeek [0] 0 30 := by
  have hmem : (5, 7) ∈ generateTripCombinations [5] [0] 0 30 := by decide
  have h := trip_pairs_valid [5] [0] 0 30 (5, 7) hmem
  exact ⟨hmem, h.1, h.2.1, h.2.2.1⟩

lemma filterMap_fst_sublist (f : Nat → Option (Nat × Nat))
    (hf : ∀ a q, f a = some q → q.1 = a) :
    ∀ l : List Nat, ((l.filterMap f).map Prod.fst).Sublist l := by
  intro l
  induction l with
  | nil => simp
  | cons a l ih =>
    rcases hfa : f a with _ | q
    · rw [List.filterMap_cons_none hfa]
      exact ih.cons a
    · rw [List.filterMap_cons_some hfa, List.map_cons, hf a q hfa]
      exact ih.cons₂ a

/-- C9.  The outbound components of the generated pairs form a sublist of
the outbound-date enumeration (so each outbound date yields at most one
pair, and the pairs appear in the enumeration's ascending order), and they
are strictly increasing. -/
theorem trip_pairs_per_outbound (outboundDays returnDays : List Nat) (start endDay : Nat) :
    ((generateTripCombinations outboundDays returnDays start endDay).map Prod.fst).Sublist
        (getDatesForDaysOfWeek outboundDays start endDay) ∧
      ((generateTripCombinations outboundDays returnDays start endDay).map
        Prod.fst).Pairwise (· < ·) := by
  have hsub :=
    filterMap_fst_sublist (pickReturn (getDatesForDaysOfWeek returnDays start endDay))
      (fun a q h => (pickReturn_some _ _ _ h).1)
      (getDatesForDaysOfWeek outboundDays start endDay)
  exact ⟨hsub,
    (pairwise_getDatesForDaysOfWeek outboundDays start endDay).sublist hsub⟩

end FlightFinder
